import Mathlib

/-!
Verification of the stream / consumer-group subsystem of the `redis` package
(`src/redis/stream.go`, constants from `src/redis/config.go`).

Two layers are embedded:

1. The wrapper layer: the Go methods `AddToStream`, `ReadFromStream`,
   `ReadGroupFromStream`, `AcknowledgeMessage`, `CreateConsumerGroup` and
   `ClaimPendingMessages` are translated as pure functions over an abstract
   `Client` record holding the reply of each go-redis primitive
   (`XAdd`, `XRead`, `XReadGroup`, `XAck`, `XGroupCreateMkStream`,
   `XAutoClaim`).  Error wrapping with `fmt.Errorf(..., %w, err)` becomes the
   inductive `GoErr.wrapped`.

2. The backing-service layer: the Redis server's stream / consumer-group /
   PEL semantics (the contracts of spec sections 3-4), used for the claims
   about PEL state (idempotent ack, group creation, claim-cursor progress,
   PEL uniqueness).  This code lives in the Redis server, not under `src/`,
   so it is modelled from the spec and the documented Redis command
   semantics.
-/

namespace SharedGo

/-! ## Constants (src/redis/config.go) -/

/-- Default ID for auto-generating stream entries (`DefaultStreamID = "*"`). -/
def DefaultStreamID : String := "*"

/-- Default ID for XRead, reading from the start (`DefaultLastID = "0"`). -/
def DefaultLastID : String := "0"

/-- Default ID for XReadGroup, only new messages (`DefaultGroupLastID = ">"`). -/
def DefaultGroupLastID : String := ">"

/-- Default ID for creating consumer groups (`DefaultStartID = "$"`). -/
def DefaultStartID : String := "$"

/-- Default count for claiming pending messages (`DefaultClaimCount = 100`). -/
def DefaultClaimCount : Int := 100

/-! ## Error model (src/redis/error.go and go-redis error values)

`RErr` is the error value produced by a go-redis primitive call:
`nilReply` is `redis.Nil` (the nil reply; go-redis returns it when a blocking
XREAD/XREADGROUP wait elapses with no entries, and for missing keys — the
repository re-exports it as `ErrNil` in `src/redis/error.go`);
`busygroup` is the server's BUSYGROUP reply when a consumer group already
exists; `nogroup` is NOGROUP; `transport` is any connection-level failure. -/

inductive RErr where
  | nilReply : RErr
  | busygroup : RErr
  | nogroup : RErr
  | transport : String → RErr
deriving DecidableEq, Repr

/-- A Go error value as built by this package: either a raw go-redis error, or
`fmt.Errorf(format, err)` wrapping an inner error with `%w` (which keeps the
inner error reachable through unwrapping). -/
inductive GoErr where
  | base : RErr → GoErr
  | wrapped : String → GoErr → GoErr
deriving DecidableEq, Repr

/-- The innermost go-redis error of a (possibly repeatedly) wrapped error:
what `errors.Is` / `errors.As` unwrapping reaches through the `%w` chain. -/
def GoErr.root : GoErr → RErr
  | .base e => e
  | .wrapped _ inner => inner.root

/-! ## Error format strings (src/redis/error.go) -/

def ErrAddToStream : String := "failed to add entry to stream: %w"

def ErrReadFromStream : String := "failed to read from stream: %w"

def ErrReadGroupFromStream : String := "failed to read from consumer group: %w"

def ErrAcknowledgeMessage : String := "failed to acknowledge message: %w"

def ErrCreateConsumerGroup : String := "failed to create consumer group: %w"

def ErrClaimPendingMessages : String := "failed to claim pending messages: %w"

/-! ## go-redis data types (the fields used by src/redis/stream.go) -/

/-- `redis.XMessage`: one stream entry as returned by the client. -/
structure XMessage where
  ID : String
  Values : List (String × String)
deriving DecidableEq, Repr

/-- `redis.XStream`: one stream's slice of the XREAD / XREADGROUP reply. -/
structure XStream where
  Stream : String
  Messages : List XMessage
deriving DecidableEq, Repr

/-- `redis.XAddArgs` (the fields set by `AddToStream`). -/
structure XAddArgs where
  Stream : String
  ID : String
  Values : List (String × String)
deriving DecidableEq, Repr

/-- `redis.XReadArgs` (the fields set by `ReadFromStream`).
`Count`, `Block` are Go `int64` / `time.Duration` values. -/
structure XReadArgs where
  Streams : List String
  Count : Int
  Block : Int
deriving DecidableEq, Repr

/-- `redis.XReadGroupArgs` (the fields set by `ReadGroupFromStream`). -/
structure XReadGroupArgs where
  Group : String
  Consumer : String
  Streams : List String
  Count : Int
  Block : Int
deriving DecidableEq, Repr

/-- `redis.XAutoClaimArgs` (the fields set by `ClaimPendingMessages`). -/
structure XAutoClaimArgs where
  Stream : String
  Group : String
  Consumer : String
  MinIdle : Int
  Start : String
  Count : Int
deriving DecidableEq, Repr

/-- The go-redis client as seen by `src/redis/stream.go`: the reply of each
primitive the wrapper invokes.  `xack` is keyed the way the wrapper calls it
(`XAck(ctx, stream, group, id)`). -/
structure Client where
  xadd : XAddArgs → Except RErr String
  xread : XReadArgs → Except RErr (List XStream)
  xreadgroup : XReadGroupArgs → Except RErr (List XStream)
  xack : String → String → String → Except RErr Int
  xgroupCreateMkStream : String → String → String → Except RErr Unit
  xautoclaim : XAutoClaimArgs → Except RErr (List XMessage × String)

/-! ## Argument defaulting (src/redis/stream.go) -/

/-- `AddToStream` lines 18-21: `streamID := DefaultStreamID; if len(id) > 0
{ streamID = id[0] }` — the variadic `id` keeps only its first element. -/
def addToStreamID (id : List String) : String :=
  match id with
  | [] => DefaultStreamID
  | i :: _ => i

/-- `ReadFromStream` lines 43-45: `if lastID == "" { lastID = DefaultLastID }`. -/
def readFromStreamLastID (lastID : String) : String :=
  if lastID = "" then DefaultLastID else lastID

/-- `ReadGroupFromStream` lines 72-74: empty `lastID` defaults to `">"`. -/
def readGroupLastID (lastID : String) : String :=
  if lastID = "" then DefaultGroupLastID else lastID

/-- `CreateConsumerGroup` lines 125-127: empty `startID` defaults to `"$"`. -/
def createGroupStartID (startID : String) : String :=
  if startID = "" then DefaultStartID else startID

/-- `ClaimPendingMessages` lines 144-146: `if count <= 0 { count =
DefaultClaimCount }`. -/
def claimCountArg (count : Int) : Int :=
  if count ≤ 0 then DefaultClaimCount else count

/-! ## The wrapper methods (src/redis/stream.go)

Each function returns the Go function's result; `ReadGroupFromStream` and
`ClaimPendingMessages` additionally return the trace of entry ids whose
`XAck` call succeeded during the auto-ack loop (the loop's server-side side
effects, which the Go return value does not carry). -/

/-- `AddToStream` (stream.go lines 14-34). -/
def AddToStream (c : Client) (stream : String) (values : List (String × String))
    (id : List String) : Except GoErr String :=
  match c.xadd ⟨stream, addToStreamID id, values⟩ with
  | .error err => .error (.wrapped ErrAddToStream (.base err))
  | .ok result => .ok result

/-- `ReadFromStream` (stream.go lines 39-63): XRead, wrap any error, else
return the first stream's messages (empty when the reply holds no stream). -/
def ReadFromStream (c : Client) (stream : String) (count block : Int)
    (lastID : String) : Except GoErr (List XMessage) :=
  match c.xread ⟨[stream, readFromStreamLastID lastID], count, block⟩ with
  | .error err => .error (.wrapped ErrReadFromStream (.base err))
  | .ok result =>
    .ok (match result with
      | [] => []
      | r :: _ => r.Messages)

/-- `AcknowledgeMessage` (stream.go lines 107-117). -/
def AcknowledgeMessage (c : Client) (stream group id : String) :
    Except GoErr Int :=
  match c.xack stream group id with
  | .error err => .error (.wrapped ErrAcknowledgeMessage (.base err))
  | .ok result => .ok result

/-- The auto-ack loop shared by `ReadGroupFromStream` (lines 93-100) and
`ClaimPendingMessages` (lines 161-168): acknowledge each message in order via
`AcknowledgeMessage`; on the first failure stop and produce
`fmt.Errorf(ErrAcknowledgeMessage, ackErr)`.  Returns the error (if any)
and the ids acknowledged before it. -/
def autoAckLoop (c : Client) (stream group : String) :
    List XMessage → Option GoErr × List String
  | [] => (none, [])
  | m :: rest =>
    match AcknowledgeMessage c stream group m.ID with
    | .error ackErr => (some (.wrapped ErrAcknowledgeMessage ackErr), [])
    | .ok _ =>
      let (e, acked) := autoAckLoop c stream group rest
      (e, m.ID :: acked)

/-- `ReadGroupFromStream` (stream.go lines 68-105).  Second component: ids
successfully acknowledged by the auto-ack loop. -/
def ReadGroupFromStream (c : Client) (stream group consumer : String)
    (count block : Int) (lastID : String) (autoAck : Bool) :
    Except GoErr (List XMessage) × List String :=
  match c.xreadgroup ⟨group, consumer, [stream, readGroupLastID lastID], count, block⟩ with
  | .error err => (.error (.wrapped ErrReadGroupFromStream (.base err)), [])
  | .ok result =>
    let messages : List XMessage :=
      match result with
      | [] => []
      | r :: _ => r.Messages
    if autoAck then
      match autoAckLoop c stream group messages with
      | (some e, acked) => (.error e, acked)
      | (none, acked) => (.ok messages, acked)
    else
      (.ok messages, [])

/-- `CreateConsumerGroup` (stream.go lines 121-135): `none` on success. -/
def CreateConsumerGroup (c : Client) (stream group startID : String) :
    Option GoErr :=
  match c.xgroupCreateMkStream stream group (createGroupStartID startID) with
  | .error err => some (.wrapped ErrCreateConsumerGroup (.base err))
  | .ok _ => none

/-- `ClaimPendingMessages` (stream.go lines 140-171).  Second component: ids
successfully acknowledged by the auto-ack loop. -/
def ClaimPendingMessages (c : Client) (stream group consumer : String)
    (minIdleTime : Int) (startID : String) (count : Int) (autoAck : Bool) :
    Except GoErr (List XMessage × String) × List String :=
  match c.xautoclaim ⟨stream, group, consumer, minIdleTime, startID, claimCountArg count⟩ with
  | .error err => (.error (.wrapped ErrClaimPendingMessages (.base err)), [])
  | .ok (result, start) =>
    if autoAck then
      match autoAckLoop c stream group result with
      | (some e, acked) => (.error e, acked)
      | (none, acked) => (.ok (result, start), acked)
    else
      (.ok (result, start), [])

/-! ## Context budget of the blocking reads (stream.go lines 39-41, 68-70)

`context.WithTimeout(context.Background(), block+time.Duration(inst.timeout)*time.Second)`:
durations are Go `int64` nanosecond counts; the sum and product wrap on
overflow as two's-complement 64-bit arithmetic. -/

/-- Two's-complement wrap-around of Go `int64` arithmetic. -/
def toInt64 (x : Int) : Int := (x + 2 ^ 63) % 2 ^ 64 - 2 ^ 63

/-- `time.Second` in nanoseconds. -/
def secondNs : Int := 1000000000

/-- The context deadline passed to XRead / XReadGroup:
`block + time.Duration(timeout)*time.Second` in nanoseconds, with `int64`
wrapping. -/
def readCtxBudget (block timeoutSec : Int) : Int :=
  toInt64 (block + toInt64 (timeoutSec * secondNs))

/-! ## Backing-service model

Modelled from the spec: the Redis server's stream / consumer-group / PEL
semantics (spec sections 3-5), which this repository calls through go-redis
but does not itself implement — the server code is not under `src/`.

Entry ids are `Nat` (the spec's totally-ordered opaque `LogPosition`; `XAdd`
assigns them monotonically starting at 1, so 0 plays the role of the `"0-0"`
cursor that precedes every real id and that `XAUTOCLAIM` returns when its
scan has wrapped around the whole PEL).  The state holds one stream key and
the one consumer group the claims quantify over (groups are independent:
each has its own `last_delivered` cursor and PEL). -/

/-- A pending-entry-list row (spec section 3 `PendingEntry`). -/
structure PendingEntry where
  entry_id : Nat
  consumer_name : String
  delivery_time : Nat
  delivery_count : Nat
deriving DecidableEq, Repr

/-- One log entry (spec section 3 `Entry`). -/
structure LogEntry where
  id : Nat
  fields : List (String × String)
deriving DecidableEq, Repr

/-- The stream key's state: its entries (in id order) and the last assigned
id (which only grows, even if entries were trimmed). -/
structure StreamState where
  entries : List LogEntry
  last_id : Nat
deriving DecidableEq, Repr

/-- A consumer group (spec section 3 `ConsumerGroup`): the group-relative
delivery cursor and the PEL, kept in entry-id order as Redis does. -/
structure GroupState where
  last_delivered : Nat
  pending : List PendingEntry
deriving DecidableEq, Repr

/-- Backing-service state for one stream key: the stream (absent until
provisioned), the consumer group (absent until created), and a clock used
for `delivery_time` / idle-time comparisons. -/
structure ServerState where
  stream : Option StreamState
  group : Option GroupState
  now : Nat
deriving DecidableEq, Repr

def emptyStream : StreamState := ⟨[], 0⟩

/-- The group's PEL rows (empty when the group does not exist). -/
def pelList (srv : ServerState) : List PendingEntry :=
  match srv.group with
  | none => []
  | some g => g.pending

/-- The entry ids currently in the group's PEL. -/
def pelIds (srv : ServerState) : List Nat :=
  (pelList srv).map (·.entry_id)

/-- The ids of the entries currently in the stream. -/
def entryIds (srv : ServerState) : List Nat :=
  ((srv.stream.getD emptyStream).entries).map (·.id)

/-- Modelled from the spec: resolve a group-creation start position —
`"$"` is "only new entries from now on" (the stream's last assigned id),
any numeric string is an explicit position (`"0"` = beginning of log). -/
def resolveStart (s : StreamState) (startID : String) : Nat :=
  if startID = "$" then s.last_id else (startID.toNat?).getD 0

/-- Modelled from the spec: `XADD` with auto id — provision the stream if
missing, assign id `last_id + 1`, append.  Returns the assigned id. -/
def srvXAdd (srv : ServerState) (fields : List (String × String)) :
    Nat × ServerState :=
  let s := srv.stream.getD emptyStream
  let newId := s.last_id + 1
  (newId, { srv with stream := some ⟨s.entries ++ [⟨newId, fields⟩], newId⟩ })

/-- Modelled from the spec: `XGROUP CREATE ... MKSTREAM` — fail with
BUSYGROUP if the group exists; otherwise provision the stream key if absent
and create the group at the resolved start position with an empty PEL. -/
def srvGroupCreateMkStream (srv : ServerState) (startID : String) :
    Except RErr ServerState :=
  match srv.group with
  | some _ => .error .busygroup
  | none =>
    let s := srv.stream.getD emptyStream
    .ok { srv with stream := some s,
                   group := some ⟨resolveStart s startID, []⟩ }

/-- Modelled from the spec: `XREADGROUP` with the `">"` cursor — deliver up
to `count` entries beyond the group's `last_delivered`, register each as a
PendingEntry for `consumer` with `delivery_time = now` and
`delivery_count = 1`, and advance `last_delivered` to the last delivered id. -/
def srvDeliver (srv : ServerState) (consumer : String) (count : Nat) :
    List LogEntry × ServerState :=
  match srv.group with
  | none => ([], srv)
  | some g =>
    let s := srv.stream.getD emptyStream
    let delivered := (s.entries.filter (fun e => g.last_delivered < e.id)).take count
    let newPending := delivered.map (fun e => PendingEntry.mk e.id consumer srv.now 1)
    let newLast :=
      match delivered.getLast? with
      | none => g.last_delivered
      | some e => e.id
    (delivered, { srv with group := some ⟨newLast, g.pending ++ newPending⟩ })

/-- Modelled from the spec: `XACK` — remove the PEL row for `id` if present
and return the number of rows removed (0 when no row matches). -/
def srvXAck (srv : ServerState) (id : Nat) : Nat × ServerState :=
  match srv.group with
  | none => (0, srv)
  | some g =>
    ((g.pending.filter (fun p => p.entry_id = id)).length,
     { srv with group := some ⟨g.last_delivered,
                               g.pending.filter (fun p => p.entry_id ≠ id)⟩ })

/-- One scanned-and-idle-enough PEL row after a claim by `consumer`:
ownership reassigned, `delivery_time` reset, `delivery_count` incremented. -/
def claimUpdate (consumer : String) (now minIdle : Nat) (scannedIds : List Nat)
    (p : PendingEntry) : PendingEntry :=
  if p.entry_id ∈ scannedIds ∧ minIdle ≤ now - p.delivery_time then
    ⟨p.entry_id, consumer, now, p.delivery_count + 1⟩
  else p

/-- Modelled from the spec: `XAUTOCLAIM` — scan the PEL from `cursor` in id
order, examine up to `count` rows, claim the examined rows idle for at least
`minIdle`, and return the claimed rows together with the next scan cursor:
the first unexamined id, or 0 (the `"0-0"` sentinel) when the scan reached
the end of the PEL.  The scan advances past examined rows whether or not any
was claimed. -/
def srvAutoClaim (srv : ServerState) (consumer : String)
    (minIdle cursor count : Nat) : (List PendingEntry × Nat) × ServerState :=
  match srv.group with
  | none => (([], 0), srv)
  | some g =>
    let suffix := g.pending.dropWhile (fun p => p.entry_id < cursor)
    let scanned := suffix.take count
    let nextCursor :=
      match suffix.drop count with
      | [] => 0
      | q :: _ => q.entry_id
    let scannedIds := scanned.map (·.entry_id)
    let claimed := (scanned.filter (fun p => minIdle ≤ srv.now - p.delivery_time)).map
      (fun p => PendingEntry.mk p.entry_id consumer srv.now (p.delivery_count + 1))
    ((claimed, nextCursor),
     { srv with group := some ⟨g.last_delivered,
                               g.pending.map (claimUpdate consumer srv.now minIdle scannedIds)⟩ })

/-! ## Operation sequences over the backing service -/

/-- The operations whose interleavings the PEL-uniqueness invariant is
quantified over: append, group delivery, claim, ack, and clock advance. -/
inductive GOp where
  | append : List (String × String) → GOp
  | deliver : String → Nat → GOp
  | claim : String → Nat → Nat → Nat → GOp
  | ack : Nat → GOp
  | tick : Nat → GOp
deriving DecidableEq, Repr

/-- Apply one operation to the backing-service state. -/
def applyOp (srv : ServerState) : GOp → ServerState
  | .append f => (srvXAdd srv f).2
  | .deliver c n => (srvDeliver srv c n).2
  | .claim c mi cur n => (srvAutoClaim srv c mi cur n).2
  | .ack id => (srvXAck srv id).2
  | .tick d => { srv with now := srv.now + d }

/-- Apply a sequence of operations, oldest first. -/
def applyOps (srv : ServerState) (ops : List GOp) : ServerState :=
  ops.foldl applyOp srv

/-- The well-formedness contract the backing service maintains (spec
sections 3-5): stream ids are strictly increasing, positive and at most
`last_id`; PEL ids are strictly increasing (hence unique), positive and at
most the group's `last_delivered`. -/
def Inv (srv : ServerState) : Prop :=
  (entryIds srv).Pairwise (· < ·)
  ∧ (∀ i ∈ entryIds srv, 1 ≤ i ∧ i ≤ (srv.stream.getD emptyStream).last_id)
  ∧ (pelIds srv).Pairwise (· < ·)
  ∧ (∀ g, srv.group = some g → ∀ p ∈ g.pending, 1 ≤ p.entry_id ∧ p.entry_id ≤ g.last_delivered)

instance (srv : ServerState) : Decidable (Inv srv) := by
  unfold Inv
  infer_instance

/-! ## The caller's claim loop (spec section 4.5)

The caller chains `next_cursor` back into `claim` until the returned cursor
is the end-of-scan sentinel. -/

/-- The next scan cursor produced from a PEL's id list: drop ids before
`cursor`, skip the `count` ids examined this pass, and return the first
unexamined id (0 when the scan reached the end). -/
def scanNext (ids : List Nat) (cursor count : Nat) : Nat :=
  match (ids.dropWhile (· < cursor)).drop count with
  | [] => 0
  | q :: _ => q

/-- The cursor chain computed on an id list alone: `true` iff some call
within `fuel` steps returns the end-of-scan sentinel. -/
def idChain (ids : List Nat) (cursor count fuel : Nat) : Bool :=
  match fuel with
  | 0 => false
  | fuel + 1 =>
    let next := scanNext ids cursor count
    if next = 0 then true else idChain ids next count fuel

/-- The caller's claim loop against the backing service: repeatedly call
`XAUTOCLAIM`, feeding each returned `next_cursor` back in; `true` iff some
call within `fuel` steps returns the end-of-scan sentinel. -/
def chainReaches (srv : ServerState) (consumer : String)
    (minIdle cursor count fuel : Nat) : Bool :=
  match fuel with
  | 0 => false
  | fuel + 1 =>
    let r := srvAutoClaim srv consumer minIdle cursor count
    if r.1.2 = 0 then true
    else chainReaches r.2 consumer minIdle r.1.2 count fuel

/-! ## Concrete data used by witnesses and counterexamples -/

def msgA : XMessage := ⟨"1-0", [("k", "a")]⟩

def msgB : XMessage := ⟨"2-0", [("k", "b")]⟩

def msgC : XMessage := ⟨"3-0", [("k", "c")]⟩

/-- A client whose every primitive succeeds; XREADGROUP and XAUTOCLAIM hand
back the three entries of the `orders` stream. -/
def goodClient : Client :=
  { xadd := fun _ => .ok "1-0"
    xread := fun _ => .ok []
    xreadgroup := fun _ => .ok [⟨"orders", [msgA, msgB, msgC]⟩]
    xack := fun _ _ _ => .ok 1
    xgroupCreateMkStream := fun _ _ _ => .ok ()
    xautoclaim := fun _ => .ok ([msgA, msgB, msgC], "0-0") }

/-- A client modelling a blocking read whose wait elapses (go-redis reports
the nil reply as `redis.Nil`), a BUSYGROUP group-create reply, and an XACK
that fails with a transport error on entry `"2-0"` only. -/
def badAckClient : Client :=
  { xadd := fun _ => .ok "1-0"
    xread := fun _ => .error .nilReply
    xreadgroup := fun _ => .ok [⟨"orders", [msgA, msgB, msgC]⟩]
    xack := fun _ _ id => if id = "2-0" then .error (.transport "conn reset") else .ok 1
    xgroupCreateMkStream := fun _ _ _ => .error .busygroup
    xautoclaim := fun _ => .ok ([msgA, msgB, msgC], "0-0") }

/-- A backing-service state with three appended entries, a group that has
been delivered all three (so its PEL holds them for consumer `c1`), taken
at clock 10. -/
def srvW : ServerState :=
  { stream := some ⟨[⟨1, [("k", "a")]⟩, ⟨2, [("k", "b")]⟩, ⟨3, [("k", "c")]⟩], 3⟩
    group := some ⟨3, [⟨1, "c1", 0, 1⟩, ⟨2, "c1", 0, 1⟩, ⟨3, "c1", 0, 1⟩]⟩
    now := 10 }

/-- A backing-service state with three entries and no consumer group yet. -/
def srvNoGroup : ServerState :=
  { stream := some ⟨[⟨1, [("k", "a")]⟩, ⟨2, [("k", "b")]⟩, ⟨3, [("k", "c")]⟩], 3⟩
    group := none
    now := 0 }

/-! ## Theorems -/

/-- C3: when the optional argument is omitted (empty-string id / cursor, or
count ≤ 0 for claim), the exact defaults used are: append id `"*"`,
direct-read cursor `"0"`, group-read cursor `">"`, group-create start `"$"`,
and claim batch count `100`. -/
theorem C3_defaults :
    DefaultStreamID = "*" ∧ DefaultLastID = "0" ∧ DefaultGroupLastID = ">"
    ∧ DefaultStartID = "$" ∧ DefaultClaimCount = 100
    ∧ addToStreamID [] = "*"
    ∧ readFromStreamLastID "" = "0"
    ∧ readGroupLastID "" = ">"
    ∧ createGroupStartID "" = "$"
    ∧ ∀ count : Int, count ≤ 0 → claimCountArg count = 100 := by
  refine ⟨rfl, rfl, rfl, rfl, rfl, rfl, rfl, rfl, rfl, ?_⟩
  intro count h
  simp [claimCountArg, h, DefaultClaimCount]

/-- Witness for C3 at the concrete claim count 0. -/
theorem C3_defaults_witness : (0 : Int) ≤ 0 ∧ claimCountArg 0 = 100 :=
  ⟨le_refl 0, C3_defaults.2.2.2.2.2.2.2.2.2 0 (le_refl 0)⟩

/-- C10: `AddToStream` with more than one explicit id argument uses only the
first id for the appended entry and silently ignores the rest; with no id
argument the auto-id marker `"*"` is sent. -/
theorem C10_variadic_id :
    (∀ x rest, addToStreamID (x :: rest) = x)
    ∧ addToStreamID [] = DefaultStreamID
    ∧ DefaultStreamID = "*"
    ∧ (∀ c stream values x rest,
        AddToStream c stream values (x :: rest) = AddToStream c stream values [x])
    ∧ (∀ c stream values,
        AddToStream c stream values []
          = match c.xadd ⟨stream, "*", values⟩ with
            | .error err => .error (.wrapped ErrAddToStream (.base err))
            | .ok result => .ok result) := by
  refine ⟨fun x rest => rfl, rfl, rfl, fun c stream values x rest => rfl,
    fun c stream values => rfl⟩

/-- C4: the context deadline of `ReadFromStream` / `ReadGroupFromStream`
equals the service timeout extended by `block_duration`
(`block + time.Duration(timeout)*time.Second`), so for any blocking call
whose arithmetic does not overflow `int64` the budget is never below
`block`: the wait is not truncated by the connection-level deadline. -/
theorem C4_ctx_budget (block timeoutSec : Int) (h1 : 0 < block)
    (h2 : 0 ≤ timeoutSec) (h3 : block + timeoutSec * secondNs < 2 ^ 63) :
    readCtxBudget block timeoutSec = block + timeoutSec * secondNs
    ∧ block ≤ readCtxBudget block timeoutSec := by
  have hs : secondNs = 1000000000 := rfl
  unfold readCtxBudget toInt64
  rw [hs] at h3 ⊢
  constructor <;> omega

/-- Witness for C4 at `block` = 1 s (1000000000 ns), service timeout 5 s. -/
theorem C4_ctx_budget_witness :
    (0 : Int) < 1000000000 ∧ (0 : Int) ≤ 5
    ∧ (1000000000 : Int) + 5 * secondNs < 2 ^ 63
    ∧ readCtxBudget 1000000000 5 = 1000000000 + 5 * secondNs := by
  refine ⟨by norm_num, by norm_num, by norm_num [secondNs], ?_⟩
  exact (C4_ctx_budget 1000000000 5 (by norm_num) (by norm_num)
    (by norm_num [secondNs])).1

/-- C7: when the backing service rejects group creation (its BUSYGROUP reply
when the group already exists), `CreateConsumerGroup` fails with an error
that wraps the server's reply with `%w`, so the root cause stays reachable
and is distinct from the other failure causes (nil reply, transport). -/
theorem C7_busygroup_distinct (c : Client) (stream group startID : String)
    (e : RErr)
    (h : c.xgroupCreateMkStream stream group (createGroupStartID startID) = .error e) :
    CreateConsumerGroup c stream group startID
      = some (.wrapped ErrCreateConsumerGroup (.base e))
    ∧ GoErr.root (.wrapped ErrCreateConsumerGroup (.base e)) = e
    ∧ RErr.busygroup ≠ RErr.nilReply
    ∧ (∀ m, RErr.busygroup ≠ RErr.transport m) := by
  refine ⟨?_, rfl, by simp, fun m => by simp⟩
  unfold CreateConsumerGroup
  rw [h]

/-- Witness for C7: the BUSYGROUP reply of `badAckClient` surfaces as a
wrapped error with root `busygroup`. -/
theorem C7_busygroup_distinct_witness :
    CreateConsumerGroup badAckClient "orders" "g1" ""
      = some (.wrapped ErrCreateConsumerGroup (.base .busygroup))
    ∧ GoErr.root (.wrapped ErrCreateConsumerGroup (.base .busygroup)) = .busygroup :=
  ⟨(C7_busygroup_distinct badAckClient "orders" "g1" "" .busygroup rfl).1,
   (C7_busygroup_distinct badAckClient "orders" "g1" "" .busygroup rfl).2.1⟩

/-- C1 counterexample: a blocking `ReadFromStream` whose wait elapses with
no entries does NOT return an empty sequence with no error.  go-redis
reports the server's nil reply (the elapsed BLOCK wait) as `redis.Nil`, and
`ReadFromStream` wraps every client error (stream.go lines 53-55), so the
call returns a wrapped `redis.Nil` error instead of `([], nil)`. -/
theorem C1_counterexample :
    ReadFromStream badAckClient "orders" 10 1000000000 ""
      = .error (.wrapped ErrReadFromStream (.base .nilReply)) := rfl

/-- C1 amended: `ReadFromStream` / `ReadGroupFromStream` return an empty
sequence with no error exactly when the client reply succeeds with no
stream; every client error — including `redis.Nil`, which go-redis uses for
a blocking wait that elapses with no entries — is wrapped and returned as
an error. -/
theorem C1_empty_read (c : Client) (stream group consumer : String)
    (count block : Int) (lastID : String) :
    (c.xread ⟨[stream, readFromStreamLastID lastID], count, block⟩ = .ok [] →
      ReadFromStream c stream count block lastID = .ok [])
    ∧ (∀ e, c.xread ⟨[stream, readFromStreamLastID lastID], count, block⟩ = .error e →
      ReadFromStream c stream count block lastID
        = .error (.wrapped ErrReadFromStream (.base e)))
    ∧ (c.xreadgroup ⟨group, consumer, [stream, readGroupLastID lastID], count, block⟩
        = .ok [] →
      ReadGroupFromStream c stream group consumer count block lastID false
        = (.ok [], []))
    ∧ (∀ e, c.xreadgroup ⟨group, consumer, [stream, readGroupLastID lastID], count, block⟩
        = .error e →
      ReadGroupFromStream c stream group consumer count block lastID false
        = (.error (.wrapped ErrReadGroupFromStream (.base e)), [])) := by
  refine ⟨?_, ?_, ?_, ?_⟩
  · intro h
    unfold ReadFromStream
    rw [h]
  · intro e h
    unfold ReadFromStream
    rw [h]
  · intro h
    unfold ReadGroupFromStream
    rw [h]
    rfl
  · intro e h
    unfold ReadGroupFromStream
    rw [h]

/-- Witness for the amended C1: `goodClient` answers XRead with a successful
empty reply and the call returns `.ok []`; `badAckClient` answers with
`redis.Nil` (elapsed blocking wait) and the group read returns the wrapped
error. -/
theorem C1_empty_read_witness :
    ReadFromStream goodClient "orders" 10 1000000000 "" = .ok []
    ∧ ReadFromStream badAckClient "orders" 10 1000000000 ""
        = .error (.wrapped ErrReadFromStream (.base .nilReply)) :=
  ⟨(C1_empty_read goodClient "orders" "g1" "c1" 10 1000000000 "").1 rfl,
   (C1_empty_read badAckClient "orders" "g1" "c1" 10 1000000000 "").2.1 .nilReply rfl⟩

/-- When every message's XACK succeeds, the auto-ack loop reports no error
and acknowledges every id, in delivery order. -/
theorem autoAckLoop_ok (c : Client) (stream group : String)
    (msgs : List XMessage)
    (h : ∀ m ∈ msgs, ∃ n, c.xack stream group m.ID = .ok n) :
    autoAckLoop c stream group msgs = (none, msgs.map (·.ID)) := by
  induction msgs with
  | nil => rfl
  | cons m rest ih =>
    obtain ⟨n, hn⟩ := h m (by simp)
    have hrest := ih (fun x hx => h x (by simp [hx]))
    simp only [autoAckLoop, AcknowledgeMessage, hn, hrest, List.map_cons]

/-- When the XACK of `bad` fails after those of `pre` succeeded, the
auto-ack loop stops at `bad`: it reports the doubly wrapped ack error and
has acknowledged exactly the ids of `pre` (nothing after `bad`). -/
theorem autoAckLoop_fail (c : Client) (stream group : String)
    (pre post : List XMessage) (bad : XMessage) (e : RErr)
    (hpre : ∀ m ∈ pre, ∃ n, c.xack stream group m.ID = .ok n)
    (hbad : c.xack stream group bad.ID = .error e) :
    autoAckLoop c stream group (pre ++ bad :: post)
      = (some (.wrapped ErrAcknowledgeMessage
          (.wrapped ErrAcknowledgeMessage (.base e))), pre.map (·.ID)) := by
  induction pre with
  | nil =>
    simp only [List.nil_append, autoAckLoop, AcknowledgeMessage, hbad, List.map_nil]
  | cons m rest ih =>
    obtain ⟨n, hn⟩ := hpre m (by simp)
    have hrest := ih (fun x hx => hpre x (by simp [hx]))
    simp only [List.cons_append, autoAckLoop, AcknowledgeMessage, hn,
      List.append_eq, hrest, List.map_cons]

/-- C2: with `auto_ack` true, `ReadGroupFromStream` and
`ClaimPendingMessages` acknowledge each returned entry sequentially before
returning; on success the whole batch is returned with every id
acknowledged, and if one acknowledgment fails the whole call returns an
error, the loop stops (entries after the failing one are not acknowledged),
and the delivered/claimed batch is not returned. -/
theorem C2_autoack (c : Client) (stream group consumer : String)
    (count block minIdleTime countc : Int) (lastID startID nextStart : String)
    (msgs pre post : List XMessage) (bad : XMessage) (e : RErr)
    (hread : c.xreadgroup
        ⟨group, consumer, [stream, readGroupLastID lastID], count, block⟩
      = .ok [⟨stream, msgs⟩])
    (hclaim : c.xautoclaim
        ⟨stream, group, consumer, minIdleTime, startID, claimCountArg countc⟩
      = .ok (msgs, nextStart)) :
    ((∀ m ∈ msgs, ∃ n, c.xack stream group m.ID = .ok n) →
      ReadGroupFromStream c stream group consumer count block lastID true
        = (.ok msgs, msgs.map (·.ID))
      ∧ ClaimPendingMessages c stream group consumer minIdleTime startID countc true
        = (.ok (msgs, nextStart), msgs.map (·.ID)))
    ∧ (msgs = pre ++ bad :: post →
      (∀ m ∈ pre, ∃ n, c.xack stream group m.ID = .ok n) →
      c.xack stream group bad.ID = .error e →
      ReadGroupFromStream c stream group consumer count block lastID true
        = (.error (.wrapped ErrAcknowledgeMessage
            (.wrapped ErrAcknowledgeMessage (.base e))), pre.map (·.ID))
      ∧ ClaimPendingMessages c stream group consumer minIdleTime startID countc true
        = (.error (.wrapped ErrAcknowledgeMessage
            (.wrapped ErrAcknowledgeMessage (.base e))), pre.map (·.ID))) := by
  constructor
  · intro hok
    have hloop := autoAckLoop_ok c stream group msgs hok
    constructor
    · unfold ReadGroupFromStream
      rw [hread]
      simp [hloop]
    · unfold ClaimPendingMessages
      rw [hclaim]
      simp [hloop]
  · intro hmsgs hpre hbad
    have hloop := autoAckLoop_fail c stream group pre post bad e hpre hbad
    rw [← hmsgs] at hloop
    constructor
    · unfold ReadGroupFromStream
      rw [hread]
      simp [hloop]
    · unfold ClaimPendingMessages
      rw [hclaim]
      simp [hloop]

/-- Witness for C2: `goodClient` acknowledges all three delivered entries
and returns the batch; `badAckClient` fails acknowledging `"2-0"`, so the
claim call errors having acknowledged only `"1-0"`. -/
theorem C2_autoack_witness :
    (ReadGroupFromStream goodClient "orders" "g1" "c1" 10 0 "" true
      = (.ok [msgA, msgB, msgC], [msgA, msgB, msgC].map (·.ID)))
    ∧ (ClaimPendingMessages badAckClient "orders" "g1" "c2" 0 "0-0" 10 true
      = (.error (.wrapped ErrAcknowledgeMessage
          (.wrapped ErrAcknowledgeMessage (.base (.transport "conn reset")))),
         [msgA].map (·.ID))) := by
  constructor
  · exact ((C2_autoack goodClient "orders" "g1" "c1" 10 0 0 10 "" "0-0" "0-0"
      [msgA, msgB, msgC] [] [] msgA (.transport "x") rfl rfl).1
      (fun m _ => ⟨1, rfl⟩)).1
  · exact ((C2_autoack badAckClient "orders" "g1" "c2" 10 0 0 10 "" "0-0" "0-0"
      [msgA, msgB, msgC] [msgA] [msgC] msgB (.transport "conn reset") rfl rfl).2
      rfl (fun m hm => by rw [List.mem_singleton] at hm; subst hm; exact ⟨1, rfl⟩)
      rfl).2

/-- A PEL filter keeping only the row of `id` is empty when `id` is not
among the PEL's entry ids. -/
theorem filter_id_nil (l : List PendingEntry) (id : Nat)
    (h : id ∉ l.map (·.entry_id)) :
    l.filter (fun p => p.entry_id = id) = [] := by
  rw [List.filter_eq_nil_iff]
  intro p hp
  simp only [decide_eq_true_eq]
  intro hpe
  exact h (by rw [← hpe]; exact List.mem_map_of_mem (·.entry_id) hp)

/-- A PEL filter removing the row of `id` changes nothing when `id` is not
among the PEL's entry ids. -/
theorem filter_ne_self (l : List PendingEntry) (id : Nat)
    (h : id ∉ l.map (·.entry_id)) :
    l.filter (fun p => p.entry_id ≠ id) = l := by
  rw [List.filter_eq_self]
  intro p hp
  have hne : p.entry_id ≠ id :=
    fun hpe => h (by rw [← hpe]; exact List.mem_map_of_mem (·.entry_id) hp)
  simpa using hne

/-- Removing the row of `id` removes exactly `id` from the PEL's id list. -/
theorem pelIds_after_filter (l : List PendingEntry) (id : Nat) :
    (l.filter (fun p => p.entry_id ≠ id)).map (·.entry_id)
      = (l.map (·.entry_id)).filter (· ≠ id) := by
  induction l with
  | nil => rfl
  | cons p rest ih =>
    by_cases h : p.entry_id = id
    · rw [List.filter_cons_of_neg (by simpa using h), List.map_cons,
        List.filter_cons_of_neg (by simpa using h)]
      exact ih
    · rw [List.filter_cons_of_pos (by simpa using h), List.map_cons,
        List.map_cons, List.filter_cons_of_pos (by simpa using h), ih]

/-- When the PEL's ids contain no duplicates and `id` is present, the filter
keeping the row of `id` has exactly one row. -/
theorem filter_id_one (l : List PendingEntry) (id : Nat)
    (hnd : (l.map (·.entry_id)).Nodup) (hm : id ∈ l.map (·.entry_id)) :
    (l.filter (fun p => p.entry_id = id)).length = 1 := by
  induction l with
  | nil => simp at hm
  | cons p rest ih =>
    simp only [List.map_cons, List.nodup_cons] at hnd
    by_cases h : p.entry_id = id
    · rw [List.filter_cons_of_pos (by simpa using h)]
      rw [filter_id_nil rest id (by rw [← h]; exact hnd.1)]
      rfl
    · rw [List.filter_cons_of_neg (by simpa using h)]
      refine ih hnd.2 ?_
      rcases List.mem_cons.mp hm with h' | h'
      · exact absurd h'.symm h
      · exact h'

/-- C5: acknowledging an id with no matching PendingEntry returns count 0,
no error, and leaves the state unchanged (ack retries are idempotent); with
a duplicate-free PEL, a first ack of a pending id returns 1 and a repeated
ack of the same id returns 0.  The wrapper `AcknowledgeMessage` forwards a
successful XACK count unchanged and without error. -/
theorem C5_ack_idempotent (srv : ServerState) (id : Nat) (c : Client)
    (stream group gid : String) (n : Int)
    (hwrap : c.xack stream group gid = .ok n) :
    AcknowledgeMessage c stream group gid = .ok n
    ∧ (id ∉ pelIds srv → srvXAck srv id = (0, srv))
    ∧ ((pelIds srv).Nodup → id ∈ pelIds srv →
        (srvXAck srv id).1 = 1 ∧ (srvXAck (srvXAck srv id).2 id).1 = 0) := by
  refine ⟨?_, ?_, ?_⟩
  · unfold AcknowledgeMessage
    rw [hwrap]
  · intro habs
    obtain ⟨st, gr, now⟩ := srv
    cases gr with
    | none => rfl
    | some g =>
      obtain ⟨ld, pend⟩ := g
      simp only [pelIds, pelList] at habs
      simp only [srvXAck]
      rw [filter_id_nil pend id habs, filter_ne_self pend id habs]
      rfl
  · intro hnd hm
    obtain ⟨st, gr, now⟩ := srv
    cases gr with
    | none => simp [pelIds, pelList] at hm
    | some g =>
      obtain ⟨ld, pend⟩ := g
      simp only [pelIds, pelList] at hnd hm
      constructor
      · simp only [srvXAck]
        exact filter_id_one pend id hnd hm
      · simp only [srvXAck, List.length_eq_zero]
        apply filter_id_nil
        rw [pelIds_after_filter]
        simp

/-- Witness for C5 on the concrete state `srvW` (PEL = {1, 2, 3}): acking
id 5 is a no-op returning 0; acking id 2 returns 1, then 0. -/
theorem C5_ack_idempotent_witness :
    AcknowledgeMessage goodClient "orders" "g1" "2-0" = .ok 1
    ∧ srvXAck srvW 5 = (0, srvW)
    ∧ (srvXAck srvW 2).1 = 1 ∧ (srvXAck (srvXAck srvW 2).2 2).1 = 0 := by
  have h5 := C5_ack_idempotent srvW 5 goodClient "orders" "g1" "2-0" 1 rfl
  have h2 := C5_ack_idempotent srvW 2 goodClient "orders" "g1" "2-0" 1 rfl
  exact ⟨h5.1, h5.2.1 (by decide), h2.2.2 (by decide) (by decide)⟩

/-- C6: `CreateConsumerGroup` with an empty start id sends the
"only new entries from now on" position `"$"`; group creation at `"$"`
provisions the stream key when absent (MKSTREAM) and places the group
cursor at the stream's last id, so a subsequent group delivery replays none
of the pre-existing entries. -/
theorem C6_create_group (srv : ServerState) (consumer : String) (count : Nat)
    (c : Client) (stream group : String)
    (hg : srv.group = none)
    (hle : ∀ i ∈ entryIds srv, i ≤ (srv.stream.getD emptyStream).last_id) :
    createGroupStartID "" = "$"
    ∧ (CreateConsumerGroup c stream group ""
        = match c.xgroupCreateMkStream stream group DefaultStartID with
          | .error err => some (.wrapped ErrCreateConsumerGroup (.base err))
          | .ok _ => none)
    ∧ srvGroupCreateMkStream srv (createGroupStartID "")
        = .ok { srv with
                  stream := some (srv.stream.getD emptyStream),
                  group := some ⟨(srv.stream.getD emptyStream).last_id, []⟩ }
    ∧ ({ srv with
          stream := some (srv.stream.getD emptyStream),
          group := some ⟨(srv.stream.getD emptyStream).last_id, []⟩ }
        : ServerState).stream.isSome = true
    ∧ (srvDeliver { srv with
          stream := some (srv.stream.getD emptyStream),
          group := some ⟨(srv.stream.getD emptyStream).last_id, []⟩ }
        consumer count).1 = [] := by
  refine ⟨rfl, rfl, ?_, rfl, ?_⟩
  · simp only [srvGroupCreateMkStream, hg]
    rfl
  · simp only [srvDeliver, Option.getD_some]
    have hnil : (srv.stream.getD emptyStream).entries.filter
        (fun e => (srv.stream.getD emptyStream).last_id < e.id) = [] := by
      rw [List.filter_eq_nil_iff]
      intro e he
      simp only [decide_eq_true_eq, not_lt]
      exact hle e.id (List.mem_map_of_mem (·.id) he)
    rw [hnil]
    simp

/-- Witness for C6 on `srvNoGroup` (three entries, no group): creation at
the default start provisions the group at id 3 and a fresh group read
delivers nothing. -/
theorem C6_create_group_witness :
    srvGroupCreateMkStream srvNoGroup (createGroupStartID "")
      = .ok { srvNoGroup with
                stream := some (srvNoGroup.stream.getD emptyStream),
                group := some ⟨(srvNoGroup.stream.getD emptyStream).last_id, []⟩ }
    ∧ (srvDeliver { srvNoGroup with
          stream := some (srvNoGroup.stream.getD emptyStream),
          group := some ⟨(srvNoGroup.stream.getD emptyStream).last_id, []⟩ }
        "c1" 10).1 = [] :=
  ⟨(C6_create_group srvNoGroup "c1" 10 goodClient "orders" "g1" rfl
      (by decide)).2.2.1,
   (C6_create_group srvNoGroup "c1" 10 goodClient "orders" "g1" rfl
      (by decide)).2.2.2.2⟩

/-- Claiming rewrites a PEL row's consumer, time and count but never its
entry id. -/
theorem claimUpdate_id (consumer : String) (now minIdle : Nat)
    (s : List Nat) (p : PendingEntry) :
    (claimUpdate consumer now minIdle s p).entry_id = p.entry_id := by
  unfold claimUpdate
  split <;> rfl

/-- A claim pass leaves the PEL's id list untouched. -/
theorem pelIds_map_claimUpdate (consumer : String) (now minIdle : Nat)
    (s : List Nat) (l : List PendingEntry) :
    (l.map (claimUpdate consumer now minIdle s)).map (·.entry_id)
      = l.map (·.entry_id) := by
  rw [List.map_map]
  exact List.map_congr_left (fun p _ => claimUpdate_id consumer now minIdle s p)

/-- `XAUTOCLAIM` does not change which ids are pending. -/
theorem srvAutoClaim_pelIds (srv : ServerState) (c : String) (mi cur n : Nat) :
    pelIds (srvAutoClaim srv c mi cur n).2 = pelIds srv := by
  obtain ⟨st, gr, now⟩ := srv
  cases gr with
  | none => rfl
  | some g =>
    simp only [srvAutoClaim, pelIds, pelList]
    exact pelIds_map_claimUpdate _ _ _ _ _

/-- The cursor `XAUTOCLAIM` returns is a function of the PEL's id list
alone. -/
theorem srvAutoClaim_next (srv : ServerState) (c : String) (mi cur n : Nat) :
    (srvAutoClaim srv c mi cur n).1.2 = scanNext (pelIds srv) cur n := by
  obtain ⟨st, gr, now⟩ := srv
  cases gr with
  | none =>
    show (0 : Nat) = scanNext [] cur n
    unfold scanNext
    rw [List.dropWhile_nil, List.drop_nil]
  | some g =>
    simp only [srvAutoClaim, scanNext, pelIds, pelList]
    rw [List.dropWhile_map, ← List.map_drop]
    cases hd : (g.pending.dropWhile
        ((fun x => decide (x < cur)) ∘ fun p => p.entry_id)).drop n with
    | nil =>
      have hd2 : (g.pending.dropWhile
          (fun p => decide (p.entry_id < cur))).drop n = [] := hd
      rw [hd2]
      rfl
    | cons q rest =>
      have hd2 : (g.pending.dropWhile
          (fun p => decide (p.entry_id < cur))).drop n = q :: rest := hd
      rw [hd2]
      rfl

/-- The caller's claim loop behaves like the cursor chain computed on the
(unchanging) PEL id list. -/
theorem chainReaches_eq_idChain (c : String) (mi n : Nat) :
    ∀ (fuel : Nat) (srv : ServerState) (cur : Nat),
      chainReaches srv c mi cur n fuel = idChain (pelIds srv) cur n fuel := by
  intro fuel
  induction fuel with
  | zero => intro srv cur; rfl
  | succ f ih =>
    intro srv cur
    simp only [chainReaches, idChain]
    rw [srvAutoClaim_next]
    by_cases h : scanNext (pelIds srv) cur n = 0
    · simp [h]
    · rw [if_neg h, if_neg h, ih, srvAutoClaim_pelIds]

/-- Every id surviving a `dropWhile (· < cursor)` on a sorted id list is at
least `cursor`. -/
theorem dropWhile_ge (cursor : Nat) :
    ∀ (ids : List Nat), ids.Pairwise (· < ·) →
      ∀ x ∈ ids.dropWhile (· < cursor), cursor ≤ x := by
  intro ids
  induction ids with
  | nil => intro _ x hx; simp at hx
  | cons a l ih =>
    intro hp x hx
    by_cases ha : a < cursor
    · rw [List.dropWhile_cons_of_pos (by simpa using ha)] at hx
      exact ih (List.pairwise_cons.mp hp).2 x hx
    · rw [List.dropWhile_cons_of_neg (by simpa using ha)] at hx
      rcases List.mem_cons.mp hx with h | h
      · subst h; omega
      · exact le_of_lt (lt_of_le_of_lt (le_of_not_lt ha)
          ((List.pairwise_cons.mp hp).1 x h))

/-- Dropping everything below `q` from a sorted list whose prefix is wholly
below `q` lands exactly on `q`'s suffix. -/
theorem dropWhile_eq_suffix (q : Nat) :
    ∀ (l₁ l₂ : List Nat), (∀ x ∈ l₁, x < q) →
      (l₁ ++ q :: l₂).dropWhile (· < q) = q :: l₂ := by
  intro l₁
  induction l₁ with
  | nil =>
    intro l₂ _
    rw [List.nil_append, List.dropWhile_cons_of_neg (by simp)]
  | cons a l ih =>
    intro l₂ h
    rw [List.cons_append,
      List.dropWhile_cons_of_pos (by simpa using h a (by simp))]
    exact ih l₂ (fun x hx => h x (by simp [hx]))

/-- Over a sorted, positive id list, the cursor chain reaches the
end-of-scan sentinel within `length + 1` steps whenever each pass examines
at least one id — regardless of idle times, because the scan cursor always
advances past examined ids. -/
theorem idChain_terminates (count : Nat) (hc : 1 ≤ count) :
    ∀ (fuel : Nat) (ids : List Nat), ids.Pairwise (· < ·) →
      (∀ i ∈ ids, 1 ≤ i) → ∀ (cursor : Nat),
      (ids.dropWhile (· < cursor)).length < fuel →
      idChain ids cursor count fuel = true := by
  intro fuel
  induction fuel with
  | zero => intro ids _ _ cursor h; omega
  | succ f ih =>
    intro ids hp hpos cursor hlen
    simp only [idChain]
    cases hdrop : (ids.dropWhile (· < cursor)).drop count with
    | nil =>
      have h0 : scanNext ids cursor count = 0 := by
        simp [scanNext, hdrop]
      simp [h0]
    | cons q rest =>
      have hq : scanNext ids cursor count = q := by
        simp [scanNext, hdrop]
      have hqsfx : q ∈ ids.dropWhile (· < cursor) :=
        (List.drop_sublist count _).mem (by rw [hdrop]; exact List.mem_cons_self q rest)
      have hqmem : q ∈ ids := (List.dropWhile_sublist _).mem hqsfx
      have hq1 : 1 ≤ q := hpos q hqmem
      rw [hq, if_neg (by omega)]
      have hsfxdec : ids.dropWhile (· < cursor)
          = (ids.dropWhile (· < cursor)).take count ++ q :: rest := by
        rw [← hdrop, List.take_append_drop]
      have hdecomp : ids
          = (ids.takeWhile (· < cursor)
              ++ (ids.dropWhile (· < cursor)).take count) ++ q :: rest := by
        rw [List.append_assoc, ← hsfxdec, List.takeWhile_append_dropWhile]
      have hsfxpw : ((ids.dropWhile (· < cursor)).take count
          ++ q :: rest).Pairwise (· < ·) := by
        rw [← hsfxdec]
        exact hp.sublist (List.dropWhile_sublist _)
      have hlt : ∀ x ∈ ids.takeWhile (· < cursor)
          ++ (ids.dropWhile (· < cursor)).take count, x < q := by
        intro x hx
        rcases List.mem_append.mp hx with h | h
        · have hxc : x < cursor := by
            simpa using List.mem_takeWhile_imp h
          have hcq : cursor ≤ q := dropWhile_ge cursor ids hp q hqsfx
          omega
        · exact (List.pairwise_append.mp hsfxpw).2.2 x h q
            (List.mem_cons_self q rest)
      have hnext : ids.dropWhile (· < q) = q :: rest := by
        calc ids.dropWhile (· < q)
            = ((ids.takeWhile (· < cursor)
                ++ (ids.dropWhile (· < cursor)).take count)
                ++ q :: rest).dropWhile (· < q) := by rw [← hdecomp]
          _ = q :: rest := dropWhile_eq_suffix q _ rest hlt
      apply ih ids hp hpos q
      rw [hnext]
      have hdl : ((ids.dropWhile (· < cursor)).drop count).length
          = (ids.dropWhile (· < cursor)).length - count := List.length_drop _ _
      rw [hdrop] at hdl
      simp only [List.length_cons] at hdl ⊢
      omega

/-- C8: repeated `ClaimPendingMessages` calls feeding each returned
`next_cursor` back in exhaust the PEL scan within PEL-size + 1 calls and
reach the end-of-scan sentinel, even when no scanned entry is idle for at
least `min_idle`: the scan cursor always advances over the bounded PEL. -/
theorem C8_claim_progress (srv : ServerState) (consumer : String)
    (minIdle cursor count : Nat) (hInv : Inv srv) (hcount : 1 ≤ count) :
    chainReaches srv consumer minIdle cursor count
      ((pelList srv).length + 1) = true := by
  rw [chainReaches_eq_idChain]
  apply idChain_terminates count hcount _ (pelIds srv) hInv.2.2.1 ?_ cursor ?_
  · intro i hi
    rcases List.mem_map.mp hi with ⟨p, hp, hpe⟩
    rcases hg : srv.group with _ | g
    · simp [pelList, hg] at hp
    · simp only [pelList, hg] at hp
      exact hpe ▸ (hInv.2.2.2 g hg p hp).1
  · have h1 : (pelIds srv).length = (pelList srv).length :=
      List.length_map _ _
    have h2 := ((pelIds srv).dropWhile_sublist (· < cursor)).length_le
    omega

/-- Witness for C8 on `srvW` (three pending entries): four chained claim
calls starting from cursor 0 reach the sentinel even with an infinite
idle threshold (nothing claimable). -/
theorem C8_claim_progress_witness :
    Inv srvW ∧ 1 ≤ 1
    ∧ chainReaches srvW "c2" 1000000 0 1 ((pelList srvW).length + 1) = true :=
  ⟨by decide, le_refl 1, C8_claim_progress srvW "c2" 1000000 0 1 (by decide) (le_refl 1)⟩

/-- In a strictly increasing entry list, every member's id is at most the
last entry's id. -/
theorem le_getLast_id (l : List LogEntry)
    (hp : (l.map (·.id)).Pairwise (· < ·))
    (e : LogEntry) (he : e ∈ l) (b : LogEntry) (hb : l.getLast? = some b) :
    e.id ≤ b.id := by
  obtain ⟨ys, rfl⟩ := List.getLast?_eq_some_iff.mp hb
  rw [List.map_append] at hp
  rcases List.mem_append.mp he with h | h
  · exact le_of_lt ((List.pairwise_append.mp hp).2.2 e.id
      (List.mem_map_of_mem (·.id) h) b.id (by simp))
  · rw [List.mem_singleton] at h
    subst h
    exact le_refl _

/-- Clock advance changes no stream, group or PEL state. -/
theorem inv_tick (srv : ServerState) (d : Nat) (h : Inv srv) :
    Inv (applyOp srv (.tick d)) := h

/-- Appending preserves the backing-service contract: the new entry gets id
`last_id + 1`, above every existing id. -/
theorem inv_append (srv : ServerState) (f : List (String × String))
    (h : Inv srv) : Inv (applyOp srv (.append f)) := by
  obtain ⟨hes, heb, hps, hpb⟩ := h
  obtain ⟨st, gr, now⟩ := srv
  simp only [entryIds] at hes heb
  refine ⟨?_, ?_, hps, hpb⟩
  · simp only [applyOp, srvXAdd, entryIds, Option.getD_some, List.map_append,
      List.map_cons, List.map_nil]
    refine List.pairwise_append.mpr ⟨hes, List.pairwise_singleton _ _, ?_⟩
    intro a ha b hb
    rw [List.mem_singleton] at hb
    subst hb
    have := (heb a ha).2
    omega
  · simp only [applyOp, srvXAdd, entryIds, Option.getD_some, List.map_append,
      List.map_cons, List.map_nil]
    intro i hi
    rcases List.mem_append.mp hi with hi | hi
    · have := heb i hi
      omega
    · rw [List.mem_singleton] at hi
      omega

/-- Acknowledging preserves the backing-service contract: it only removes a
PEL row. -/
theorem inv_ack (srv : ServerState) (id : Nat) (h : Inv srv) :
    Inv (applyOp srv (.ack id)) := by
  obtain ⟨hes, heb, hps, hpb⟩ := h
  obtain ⟨st, gr, now⟩ := srv
  cases gr with
  | none => exact ⟨hes, heb, hps, hpb⟩
  | some g =>
    refine ⟨hes, heb, ?_, ?_⟩
    · have hrw : pelIds (applyOp ⟨st, some g, now⟩ (.ack id))
          = (pelIds ⟨st, some g, now⟩).filter (· ≠ id) := by
        simp only [applyOp, srvXAck, pelIds, pelList]
        exact pelIds_after_filter g.pending id
      rw [hrw]
      exact hps.sublist (List.filter_sublist _)
    · intro g' hg' p hp
      simp only [applyOp, srvXAck] at hg'
      rcases Option.some.inj hg' with rfl
      exact hpb g rfl p (List.mem_of_mem_filter hp)

/-- Claiming preserves the backing-service contract: it rewrites rows in
place, never their ids. -/
theorem inv_claim (srv : ServerState) (c : String) (mi cur n : Nat)
    (h : Inv srv) : Inv (applyOp srv (.claim c mi cur n)) := by
  obtain ⟨hes, heb, hps, hpb⟩ := h
  obtain ⟨st, gr, now⟩ := srv
  cases gr with
  | none => exact ⟨hes, heb, hps, hpb⟩
  | some g =>
    refine ⟨hes, heb, ?_, ?_⟩
    · have hrw := srvAutoClaim_pelIds ⟨st, some g, now⟩ c mi cur n
      rw [show pelIds (applyOp ⟨st, some g, now⟩ (.claim c mi cur n))
          = pelIds (srvAutoClaim ⟨st, some g, now⟩ c mi cur n).2 from rfl, hrw]
      exact hps
    · intro g' hg' p hp
      simp only [applyOp, srvAutoClaim] at hg'
      rcases Option.some.inj hg' with rfl
      rcases List.mem_map.mp hp with ⟨q, hq, rfl⟩
      rw [claimUpdate_id]
      exact hpb g rfl q hq

/-- Delivery preserves the backing-service contract: delivered entries have
ids above `last_delivered` (hence above every pending id) and at most the
new `last_delivered`. -/
theorem inv_deliver (srv : ServerState) (consumer : String) (n : Nat)
    (h : Inv srv) : Inv (applyOp srv (.deliver consumer n)) := by
  obtain ⟨hes, heb, hps, hpb⟩ := h
  obtain ⟨st, gr, now⟩ := srv
  cases gr with
  | none => exact ⟨hes, heb, hps, hpb⟩
  | some g =>
    simp only [entryIds] at hes heb
    simp only [pelIds, pelList] at hps
    have hple := hpb g rfl
    have hdsub : List.Sublist
        (((st.getD emptyStream).entries.filter
          (fun e => g.last_delivered < e.id)).take n)
        (st.getD emptyStream).entries :=
      (List.take_sublist _ _).trans (List.filter_sublist _)
    have hdids : ((((st.getD emptyStream).entries.filter
          (fun e => g.last_delivered < e.id)).take n).map (·.id)).Pairwise
          (· < ·) :=
      hes.sublist (hdsub.map _)
    have hgt : ∀ e ∈ ((st.getD emptyStream).entries.filter
          (fun e => g.last_delivered < e.id)).take n,
        g.last_delivered < e.id := by
      intro e he
      have := List.of_mem_filter (List.mem_of_mem_take he)
      simpa using this
    have hpos : ∀ e ∈ ((st.getD emptyStream).entries.filter
          (fun e => g.last_delivered < e.id)).take n, 1 ≤ e.id := by
      intro e he
      exact (heb e.id (List.mem_map_of_mem (·.id) (hdsub.mem he))).1
    refine ⟨hes, heb, ?_, ?_⟩
    · simp only [applyOp, srvDeliver, pelIds, pelList, List.map_append,
        List.map_map]
      refine List.pairwise_append.mpr ⟨hps, ?_, ?_⟩
      · have hcomp : (((st.getD emptyStream).entries.filter
            (fun e => g.last_delivered < e.id)).take n).map
              ((fun p => p.entry_id) ∘ fun e => PendingEntry.mk e.id consumer now 1)
            = (((st.getD emptyStream).entries.filter
            (fun e => g.last_delivered < e.id)).take n).map (·.id) := rfl
        rw [hcomp]
        exact hdids
      · intro a ha b hb
        rcases List.mem_map.mp ha with ⟨p, hpmem, rfl⟩
        rcases List.mem_map.mp hb with ⟨e, hemem, rfl⟩
        have h1 : p.entry_id ≤ g.last_delivered := (hple p hpmem).2
        have h2 : g.last_delivered < e.id := hgt e hemem
        exact lt_of_le_of_lt h1 h2
    · intro g' hg' p hp
      simp only [applyOp, srvDeliver] at hg'
      rcases Option.some.inj hg' with rfl
      rcases List.mem_append.mp hp with hmem | hmem
      · refine ⟨(hple p hmem).1, ?_⟩
        cases hlast : (((st.getD emptyStream).entries.filter
            (fun e => g.last_delivered < e.id)).take n).getLast? with
        | none => exact (hple p hmem).2
        | some b =>
          have hb := hgt b (List.mem_of_getLast?_eq_some hlast)
          exact le_trans (hple p hmem).2 (le_of_lt hb)
      · rcases List.mem_map.mp hmem with ⟨e, hemem, rfl⟩
        refine ⟨hpos e hemem, ?_⟩
        cases hlast : (((st.getD emptyStream).entries.filter
            (fun e => g.last_delivered < e.id)).take n).getLast? with
        | none =>
          rw [List.getLast?_eq_none_iff] at hlast
          rw [hlast] at hemem
          simp at hemem
        | some b =>
          exact le_getLast_id _ hdids e hemem b hlast

/-- One operation preserves the backing-service contract. -/
theorem applyOp_inv (srv : ServerState) (op : GOp) (h : Inv srv) :
    Inv (applyOp srv op) := by
  cases op with
  | append f => exact inv_append srv f h
  | deliver c n => exact inv_deliver srv c n h
  | claim c mi cur n => exact inv_claim srv c mi cur n h
  | ack id => exact inv_ack srv id h
  | tick d => exact inv_tick srv d h

/-- Any operation sequence preserves the backing-service contract. -/
theorem applyOps_inv (ops : List GOp) :
    ∀ (srv : ServerState), Inv srv → Inv (applyOps srv ops) := by
  induction ops with
  | nil => intro srv h; exact h
  | cons op rest ih =>
    intro srv h
    exact ih (applyOp srv op) (applyOp_inv srv op h)

/-- C9: in every state reachable by any sequence of append / deliver /
claim / ack / clock operations from a well-formed state, each entry id
appears at most once in the group's PEL; moreover delivery only adds rows
with `delivery_count` 1, a claim keeps the id set unchanged and either
leaves a row alone or reassigns it to the claiming consumer with its count
incremented and its time reset, and an ack removes exactly the acknowledged
id. -/
theorem C9_pel_unique (srv : ServerState) (ops : List GOp)
    (consumer : String) (n minIdle cursor cnt id : Nat) (hInv : Inv srv) :
    (pelIds (applyOps srv ops)).Nodup
    ∧ (∀ p ∈ pelList (applyOp srv (.deliver consumer n)),
        p ∈ pelList srv ∨ p.delivery_count = 1)
    ∧ pelIds (applyOp srv (.claim consumer minIdle cursor cnt)) = pelIds srv
    ∧ (∀ p ∈ pelList (applyOp srv (.claim consumer minIdle cursor cnt)),
        ∃ q ∈ pelList srv, q.entry_id = p.entry_id ∧
          (p = q ∨ (p.consumer_name = consumer
            ∧ p.delivery_count = q.delivery_count + 1
            ∧ p.delivery_time = srv.now)))
    ∧ pelIds (applyOp srv (.ack id)) = (pelIds srv).filter (· ≠ id) := by
  refine ⟨?_, ?_, ?_, ?_, ?_⟩
  · exact ((applyOps_inv ops srv hInv).2.2.1).imp (fun hlt => Nat.ne_of_lt hlt)
  · intro p hp
    obtain ⟨st, gr, now⟩ := srv
    cases gr with
    | none => exact Or.inl hp
    | some g =>
      simp only [applyOp, srvDeliver, pelList] at hp
      rcases List.mem_append.mp hp with hmem | hmem
      · exact Or.inl hmem
      · rcases List.mem_map.mp hmem with ⟨e, _, rfl⟩
        exact Or.inr rfl
  · exact srvAutoClaim_pelIds srv consumer minIdle cursor cnt
  · intro p hp
    obtain ⟨st, gr, now⟩ := srv
    cases gr with
    | none => simp [applyOp, srvAutoClaim, pelList] at hp
    | some g =>
      simp only [applyOp, srvAutoClaim, pelList] at hp
      rcases List.mem_map.mp hp with ⟨q, hq, rfl⟩
      refine ⟨q, hq, (claimUpdate_id _ _ _ _ q).symm, ?_⟩
      unfold claimUpdate
      split
      · exact Or.inr ⟨rfl, rfl, rfl⟩
      · exact Or.inl rfl
  · obtain ⟨st, gr, now⟩ := srv
    cases gr with
    | none => rfl
    | some g =>
      simp only [applyOp, srvXAck, pelIds, pelList]
      exact pelIds_after_filter g.pending id

/-- Witness for C9 on `srvW` with a mixed operation sequence (advance the
clock, deliver, append, deliver again, claim, ack). -/
theorem C9_pel_unique_witness :
    Inv srvW
    ∧ (pelIds (applyOps srvW
        [.tick 5, .append [("k", "d")], .deliver "c2" 10,
         .claim "c3" 0 0 2, .ack 2])).Nodup :=
  ⟨by decide,
   (C9_pel_unique srvW
      [.tick 5, .append [("k", "d")], .deliver "c2" 10,
       .claim "c3" 0 0 2, .ack 2]
      "c2" 1 0 0 2 3 (by decide)).1⟩

end SharedGo
